import Mathlib

/-!
Shallow embedding of `adc_mic_read` from `src/c_mpos/src/adc_mic.c`
(MicroPythonOS `adc_mic` user C module), together with theorems settling
the specification claims about it.

The function runs on a 32-bit embedded target (ESP32): `int`, `size_t`
and `mp_int_t` are all 32 bits wide, so machine arithmetic is modelled
as mathematical integers reduced modulo `2^32` where the C source
performs `size_t` arithmetic or converts a signed value to `size_t`.

All external collaborators (heap allocator, codec/ADC driver, watchdog,
scheduler) are modelled by an oracle environment `Env`; every call the C
code makes to the allocator or the driver is recorded in an event trace,
which is what the resource-lifecycle claims are stated over.
-/

namespace AdcMic

/-- Conversion of a C `int` / `mp_int_t` value to `size_t` on the 32-bit
target: reduction modulo `2^32` (a non-negative representative). -/
def toU32 (x : Int) : Nat := (x % (2 ^ 32 : Int)).toNat

/-- The C cast `(uint8_t)x`: reduction modulo `2^8`. -/
def toU8 (x : Int) : Nat := (x % (2 ^ 8 : Int)).toNat

/-- The six arguments extracted at the top of `adc_mic_read`
(`chunk_samples`, `unit_id`, `adc_channel_list`, `adc_channel_num`,
`sample_rate_hz`, `atten`).  Each scalar is the `mp_int_t` produced by
`mp_obj_get_int`; `channel_list` is the array obtained by
`mp_obj_get_array`, whose length is the `size_t` `channel_list_len`. -/
structure Request where
  chunk_samples : Int
  unit_id : Int
  channel_list : List Int
  adc_channel_num : Int
  sample_rate_hz : Int
  atten : Int

/-- The loop indices `i` of the narrowing loop
`for (size_t i = 0; i < adc_channel_num; i++)` (lines 47-49): `i` is a
`size_t`, so `adc_channel_num` is converted to `size_t` by the usual
arithmetic conversions and the loop runs for `toU32 adc_channel_num`
iterations, writing `channels[i]` at each of these indices. -/
def narrowWriteIndices (r : Request) : List Nat :=
  List.range (toU32 r.adc_channel_num)

/-- Contents of the `channels` array after the narrowing loop: entry `i`
is `(uint8_t)mp_obj_get_int(channel_list_items[i])`. -/
def narrowedChannels (r : Request) : List Nat :=
  (narrowWriteIndices r).map (fun i => toU8 (r.channel_list.getD i 0))

/-- The `audio_codec_adc_cfg_t` structure built at lines 52-61. -/
structure audio_codec_adc_cfg_t where
  max_store_buf_size : Nat
  conv_frame_size : Nat
  unit_id : Int
  adc_channel_list : List Nat
  adc_channel_num : Int
  sample_rate_hz : Int
  atten : Int
deriving DecidableEq

/-- The configuration value the source builds: `max_store_buf_size`
is `1024 * 2`, `conv_frame_size` is `1024`, the channel list is the
narrowed `channels` array. -/
def mkCfg (r : Request) : audio_codec_adc_cfg_t :=
  { max_store_buf_size := 1024 * 2
    conv_frame_size := 1024
    unit_id := r.unit_id
    adc_channel_list := narrowedChannels r
    adc_channel_num := r.adc_channel_num
    sample_rate_hz := r.sample_rate_hz
    atten := r.atten }

/-- The `esp_codec_dev_sample_info_t` (`fs`) structure of lines 83-87:
sample rate from the request, `channel = adc_channel_num`,
`bits_per_sample = 16`. -/
structure esp_codec_dev_sample_info_t where
  sample_rate : Int
  channel : Int
  bits_per_sample : Nat
deriving DecidableEq

def mkFs (r : Request) : esp_codec_dev_sample_info_t :=
  { sample_rate := r.sample_rate_hz
    channel := r.adc_channel_num
    bits_per_sample := 16 }

/-- Allocator and driver operations performed by `adc_mic_read`, in the
order the C code performs them.  (Debug prints and MicroPython argument
marshalling are out of scope per the specification.) -/
inductive Event where
  | newAdcData
  | deleteDataIf
  | devNew
  | devDelete
  | devOpen
  | devClose
  | malloc (size : Nat)
  | free
  | wdtReset
  | read (size : Nat)
  | yield
deriving DecidableEq

/-- The errors `adc_mic_read` can raise: the two `mp_raise_ValueError`
calls of the validator (lines 39-44), the three `RuntimeError`s of the
device-lifecycle steps (lines 70, 80, 92) and the `OSError(ENOMEM)` of
the allocation failure (line 105). -/
inductive Err where
  | tooManyChannels
  | listTooShort
  | initIfFailed
  | createDevFailed
  | openFailed (status : Int)
  | oom
deriving DecidableEq

/-- The MicroPython object the function returns.  `mpNull` is the C
`NULL` pointer (`MP_OBJ_NULL`), `mpNone` is `mp_const_none` (a non-NULL
pointer to the singleton `None` object), `bytes l` is a bytes object
holding the 16-bit samples `l` (two bytes per sample, little endian). -/
inductive MpObj where
  | mpNull
  | mpNone
  | bytes (samples : List Int)
deriving DecidableEq

/-- Length in bytes of a returned bytes object (each sample is 2 bytes). -/
def byteLen : MpObj → Nat
  | MpObj.bytes l => 2 * l.length
  | _ => 0

/-- Oracle for the external collaborators: whether
`audio_codec_new_adc_data` succeeds on a given configuration, whether
`esp_codec_dev_new` succeeds, the status `esp_codec_dev_open` returns
for a given stream format, whether `heap_caps_malloc` succeeds, the
value `esp_codec_dev_read` returns for chunk `k`, and the contents of
the sample buffer after the read of chunk `k`. -/
structure Env where
  newAdcDataOk : audio_codec_adc_cfg_t → Bool
  devNewOk : Bool
  openRet : esp_codec_dev_sample_info_t → Int
  mallocOk : Bool
  readRet : Nat → Int
  readData : Nat → List Int

/-- State carried through the acquisition loop: events emitted so far,
`global_min`, `global_max`, `last_buf_obj`, and whether the loop has hit
the `break` of a failed read. -/
structure LoopState where
  trace : List Event
  gmin : Int
  gmax : Int
  last : MpObj
  broken : Bool

/-- The min/max statistics loop of lines 130-134: for
`i = 0 .. n-1` read `s = audio_buffer[i]` and update
`if (s < global_min) global_min = s; if (s > global_max) global_max = s;`.

For `i ≥ buf.length` the C access `audio_buffer[i]` is out of bounds —
undefined behaviour on the target — and the `getD` default `0` used
here is only a placeholder with no counterpart in the C code; the
concrete counterexamples and witnesses below keep the scan within the
allocated buffer (`n ≤ buf.length` with `buf` holding the whole
allocation). -/
def statsFold (buf : List Int) (n : Nat) (g M : Int) : Int × Int :=
  (List.range n).foldl
    (fun p i =>
      (if buf.getD i 0 < p.1 then buf.getD i 0 else p.1,
       if buf.getD i 0 > p.2 then buf.getD i 0 else p.2))
    (g, M)

/-- One iteration of the `for (int chunk = 0; chunk < N; chunk++)` loop
(lines 120-151): watchdog reset, blocking read (`break` on a negative
return), 1 ms yield, statistics update over the first `chunk_samples`
buffer entries, and — on the final iteration — the snapshot of the
buffer's `bufSize` bytes (`bufSize / 2` samples) into `last_buf_obj`.
The `broken` flag models having left the loop via `break`. -/
def stepChunk (env : Env) (csU bufSize N : Nat) (st : LoopState) (chunk : Nat) :
    LoopState :=
  if st.broken then st
  else
    if env.readRet chunk < 0 then
      { trace := st.trace ++ [Event.wdtReset, Event.read bufSize]
        gmin := st.gmin
        gmax := st.gmax
        last := st.last
        broken := true }
    else
      { trace := st.trace ++ [Event.wdtReset, Event.read bufSize, Event.yield]
        gmin := (statsFold (env.readData chunk) csU st.gmin st.gmax).1
        gmax := (statsFold (env.readData chunk) csU st.gmin st.gmax).2
        last :=
          if chunk = N - 1 then
            MpObj.bytes ((env.readData chunk).take (bufSize / 2))
          else st.last
        broken := false }

/-- `chunk_samples` as the `size_t` the source stores it in. -/
def csU (r : Request) : Nat := toU32 r.chunk_samples

/-- `buf_size = chunk_samples * sizeof(int16_t) * adc_channel_num`
(line 98): a `size_t` product, hence reduced modulo `2^32`. -/
def bufSize (r : Request) : Nat :=
  (csU r * 2 * toU32 r.adc_channel_num) % 2 ^ 32

/-- Shallow embedding of `adc_mic_read` (lines 15-170).  Returns the
trace of allocator/driver events and either a raised error or the
returned object together with the final `global_min` / `global_max`.

Faithfulness notes tied to the source:
* validation (lines 39-44) compares the `size_t` length against
  `adc_channel_num` converted to `size_t` (usual arithmetic
  conversions), i.e. against `toU32 adc_channel_num`;
* `N = 1` (line 109), `global_min = 32767`, `global_max = -32768`
  (lines 112-113), `last_buf_obj = mp_const_none` (line 118);
* line 169 is `return last_buf_obj ? last_buf_obj : mp_obj_new_bytes(NULL, 0)`:
  the condition tests the C pointer against `NULL`, and `mp_const_none`
  is a non-NULL pointer, so only `MpObj.mpNull` would select the
  empty-bytes branch. -/
def adc_mic_read (r : Request) (env : Env) :
    List Event × Except Err (MpObj × Int × Int) :=
  if 10 < r.adc_channel_num then
    ([], Except.error Err.tooManyChannels)
  else if r.channel_list.length < toU32 r.adc_channel_num then
    ([], Except.error Err.listTooShort)
  else
    if env.newAdcDataOk (mkCfg r) then
      if env.devNewOk then
        if env.openRet (mkFs r) = 0 then
          if env.mallocOk then
            let st :=
              (List.range 1).foldl
                (stepChunk env (csU r) (bufSize r) 1)
                ⟨[], 32767, -32768, MpObj.mpNone, false⟩
            ([Event.newAdcData, Event.devNew, Event.devOpen,
               Event.malloc (bufSize r)] ++ st.trace ++
              [Event.free, Event.devClose, Event.devDelete,
               Event.deleteDataIf],
             Except.ok
               ((match st.last with
                 | MpObj.mpNull => MpObj.bytes []
                 | x => x),
                st.gmin, st.gmax))
          else
            ([Event.newAdcData, Event.devNew, Event.devOpen,
               Event.malloc (bufSize r), Event.devClose, Event.devDelete,
               Event.deleteDataIf],
             Except.error Err.oom)
        else
          ([Event.newAdcData, Event.devNew, Event.devOpen,
             Event.devDelete, Event.deleteDataIf],
           Except.error (Err.openFailed (env.openRet (mkFs r))))
      else
        ([Event.newAdcData, Event.devNew, Event.deleteDataIf],
         Except.error Err.createDevFailed)
    else
      ([Event.newAdcData], Except.error Err.initIfFailed)

/-- The sample list inside the returned bytes object (empty if the call
raised, or returned `None`). -/
def retSamples (r : Request) (env : Env) : List Int :=
  match (adc_mic_read r env).2 with
  | Except.ok (MpObj.bytes l, _, _) => l
  | _ => []

/-- The object returned by a non-raising call. -/
def retObj (r : Request) (env : Env) : Option MpObj :=
  match (adc_mic_read r env).2 with
  | Except.ok p => some p.1
  | Except.error _ => none

/-- Final `(global_min, global_max)` of a non-raising call. -/
def runStats (r : Request) (env : Env) : Int × Int :=
  match (adc_mic_read r env).2 with
  | Except.ok p => (p.2.1, p.2.2)
  | Except.error _ => (0, 0)

/-- Whether the call raised one of the validator's two
`mp_raise_ValueError` conditions (the spec's InvalidArgument). -/
def isInvalidArg : Except Err (MpObj × Int × Int) → Bool
  | Except.error Err.tooManyChannels => true
  | Except.error Err.listTooShort => true
  | _ => false

/-- The release operations among the events. -/
def isRelease : Event → Bool
  | Event.free => true
  | Event.devClose => true
  | Event.devDelete => true
  | Event.deleteDataIf => true
  | _ => false

/-- Both validator checks pass. -/
def validOk (r : Request) : Bool :=
  !(decide (10 < r.adc_channel_num)) &&
    !(decide (r.channel_list.length < toU32 r.adc_channel_num))

/-- The data interface was successfully created during the call. -/
def ifCreated (r : Request) (env : Env) : Bool :=
  validOk r && env.newAdcDataOk (mkCfg r)

/-- The codec device was successfully created during the call. -/
def devCreated (r : Request) (env : Env) : Bool :=
  ifCreated r env && env.devNewOk

/-- The codec device was successfully opened during the call. -/
def devOpened (r : Request) (env : Env) : Bool :=
  devCreated r env && decide (env.openRet (mkFs r) = 0)

/-- The sample buffer was successfully allocated during the call. -/
def bufAcquired (r : Request) (env : Env) : Bool :=
  devOpened r env && env.mallocOk

/-- The canonical teardown sequence: each acquired resource released
once, in reverse order of acquisition, resources never acquired
skipped. -/
def releasePlan (r : Request) (env : Env) : List Event :=
  (if bufAcquired r env then [Event.free] else []) ++
    (if devOpened r env then [Event.devClose] else []) ++
      (if devCreated r env then [Event.devDelete] else []) ++
        (if ifCreated r env then [Event.deleteDataIf] else [])

def isRead : Event → Bool
  | Event.read _ => true
  | _ => false

def isWdt : Event → Bool
  | Event.wdtReset => true
  | _ => false

/-- Helper for `readsGuarded`: checks the remaining events knowing the
immediately preceding event. -/
def readsGuardedAux : Event → List Event → Bool
  | _, [] => true
  | prev, e :: rest => (!(isRead e) || isWdt prev) && readsGuardedAux e rest

/-- Every `read` event in the list is immediately preceded by a
`wdtReset` event (and no `read` opens the list). -/
def readsGuarded : List Event → Bool
  | [] => true
  | e :: rest => !(isRead e) && readsGuardedAux e rest

/-- Byte length of the object returned by a non-raising call (0 when
the call raised or returned a non-bytes object). -/
def retByteLen (r : Request) (env : Env) : Nat :=
  match retObj r env with
  | some o => byteLen o
  | none => 0

/-- Modelled from the spec: the statistics scan the specification
describes in §4.4 step 4 — over all `chunk_samples × channel_num`
interleaved samples of the freshly read buffer, as a running min/max
from the initial values `32767` / `-32768`. -/
def specScanAllChannels (buf : List Int) (cs cn : Nat) : Int × Int :=
  statsFold buf (cs * cn) 32767 (-32768)

/-! ### Concrete requests and oracle environments used by the
counterexamples and witnesses -/

/-- An environment where every collaborator succeeds: interface and
device creation succeed, open returns 0, allocation succeeds, reads
return 0 bytes and leave the buffer empty. -/
def env0 : Env :=
  { newAdcDataOk := fun _ => true
    devNewOk := true
    openRet := fun _ => 0
    mallocOk := true
    readRet := fun _ => 0
    readData := fun _ => [] }

/-- `chunk_samples = 4`, one channel `[0]`. -/
def rC1 : Request := ⟨4, 0, [0], 1, 16000, 0⟩

/-- Environment whose single read fails with `-1`. -/
def envC1 : Env := { env0 with readRet := fun _ => -1 }

/-- `chunk_samples = 1`, two channels `[0, 1]`: the buffer holds
`1 × 2 = 2` interleaved samples. -/
def rC2 : Request := ⟨1, 0, [0, 1], 2, 16000, 0⟩

/-- Environment whose read succeeds and fills the two-sample buffer
with `[5, -7]`. -/
def envC2 : Env :=
  { env0 with readRet := fun _ => 1, readData := fun _ => [5, -7] }

/-- `chunk_samples = 2^28` with 9 channels: the `size_t` product
`chunk_samples * 2 * 9 = 9 * 2^29` wraps modulo `2^32` to `2^29`, so
the allocated buffer holds `2^28` samples — exactly enough for the
statistics loop's `chunk_samples` accesses, keeping every memory
access of the call in bounds despite the wrap. -/
def rC7 : Request := ⟨2 ^ 28, 0, [0, 1, 2, 3, 4, 5, 6, 7, 8], 9, 16000, 0⟩

/-- Environment whose read succeeds and fills the whole `2^28`-sample
buffer with zeros. -/
def envC7 : Env :=
  { env0 with
    readRet := fun _ => 1
    readData := fun _ => List.replicate (2 ^ 28) 0 }

/-- Request rejected by the validator: `channel_num = 11`. -/
def rC5 : Request := ⟨1, 0, [], 11, 1, 0⟩

/-- Valid single-channel request used by the success-path witnesses. -/
def rW : Request := ⟨2, 0, [0], 1, 16000, 0⟩

/-- Environment whose read succeeds and fills the two-sample buffer
with `[3, 9]`. -/
def envW : Env :=
  { env0 with readRet := fun _ => 1, readData := fun _ => [3, 9] }

/-- Environment whose allocation fails. -/
def envOom : Env := { env0 with mallocOk := false }

/-- Request with the full ceiling of 10 channels. -/
def rC10 : Request := ⟨1, 0, [0, 1, 2, 3, 4, 5, 6, 7, 8, 9], 10, 1, 0⟩

/-- Borderline request: `channel_num = 0` and `chunk_samples = 0`. -/
def rC9 : Request := ⟨0, 0, [], 0, 0, 0⟩

/-! ### Helper lemmas -/

lemma statsFold_zero (buf : List Int) (g M : Int) :
    statsFold buf 0 g M = (g, M) := rfl

lemma statsFold_succ (buf : List Int) (n : Nat) (g M : Int) :
    statsFold buf (n + 1) g M =
      (if buf.getD n 0 < (statsFold buf n g M).1 then buf.getD n 0
        else (statsFold buf n g M).1,
       if buf.getD n 0 > (statsFold buf n g M).2 then buf.getD n 0
        else (statsFold buf n g M).2) := by
  unfold statsFold
  rw [List.range_succ, List.foldl_append]
  rfl

lemma statsFold_fst_le (buf : List Int) (n : Nat) (g M : Int) :
    (statsFold buf n g M).1 ≤ g := by
  induction n with
  | zero => exact le_of_eq (congrArg Prod.fst (statsFold_zero buf g M))
  | succ n ih =>
    rw [statsFold_succ]
    dsimp only
    split_ifs with h
    · exact le_trans (le_of_lt h) ih
    · exact ih

lemma statsFold_le_snd (buf : List Int) (n : Nat) (g M : Int) :
    M ≤ (statsFold buf n g M).2 := by
  induction n with
  | zero => exact le_of_eq (congrArg Prod.snd (statsFold_zero buf g M)).symm
  | succ n ih =>
    rw [statsFold_succ]
    dsimp only
    split_ifs with h
    · exact le_trans ih (le_of_lt h)
    · exact ih

lemma statsFold_fst_succ_le (buf : List Int) (n : Nat) (g M : Int) :
    (statsFold buf (n + 1) g M).1 ≤ (statsFold buf n g M).1 := by
  rw [statsFold_succ]
  dsimp only
  split_ifs with h
  · exact le_of_lt h
  · exact le_refl _

lemma statsFold_snd_le_succ (buf : List Int) (n : Nat) (g M : Int) :
    (statsFold buf n g M).2 ≤ (statsFold buf (n + 1) g M).2 := by
  rw [statsFold_succ]
  dsimp only
  split_ifs with h
  · exact le_of_lt h
  · exact le_refl _

/-- Every sample examined by the statistics loop lies between the final
`global_min` and the final `global_max`. -/
lemma statsFold_bounds (buf : List Int) (n : Nat) (g M : Int) :
    ∀ i, i < n →
      (statsFold buf n g M).1 ≤ buf.getD i 0 ∧
        buf.getD i 0 ≤ (statsFold buf n g M).2 := by
  induction n with
  | zero => intro i h; omega
  | succ n ih =>
    intro i h
    rcases Nat.lt_succ_iff_lt_or_eq.mp h with h' | h'
    · refine ⟨le_trans (statsFold_fst_succ_le buf n g M) (ih i h').1,
        le_trans (ih i h').2 (statsFold_snd_le_succ buf n g M)⟩
    · subst h'
      rw [statsFold_succ]
      dsimp only
      constructor
      · split_ifs with hc
        · exact le_refl _
        · exact not_lt.mp hc
      · split_ifs with hc
        · exact le_refl _
        · exact not_lt.mp hc

/-- The statistics loop only looks at the first `n` entries of the
buffer. -/
lemma statsFold_congr (l1 l2 : List Int) (n : Nat) (g M : Int)
    (h : ∀ i, i < n → l1.getD i 0 = l2.getD i 0) :
    statsFold l1 n g M = statsFold l2 n g M := by
  induction n with
  | zero => rfl
  | succ n ih =>
    rw [statsFold_succ, statsFold_succ,
      ih (fun i hi => h i (Nat.lt_trans hi n.lt_succ_self)),
      h n n.lt_succ_self]

lemma byteLen_bytes (l : List Int) : byteLen (MpObj.bytes l) = 2 * l.length :=
  rfl

lemma retByteLen_eq (r : Request) (env : Env) (o : MpObj)
    (h : retObj r env = some o) : retByteLen r env = byteLen o := by
  unfold retByteLen
  rw [h]

lemma getD_take (l : List Int) (k i : Nat) (h : i < k) :
    (l.take k).getD i 0 = l.getD i 0 := by
  rw [List.getD_eq_getElem?_getD, List.getD_eq_getElem?_getD,
    List.getElem?_take, if_pos h]

/-- Reduction of `adc_mic_read` on the path where validation, the three
device-lifecycle steps and the allocation all succeed and the single
read does not fail. -/
lemma adc_mic_read_read_ok (r : Request) (env : Env)
    (hv1 : ¬ 10 < r.adc_channel_num)
    (hv2 : ¬ r.channel_list.length < toU32 r.adc_channel_num)
    (hif : env.newAdcDataOk (mkCfg r) = true)
    (hdev : env.devNewOk = true)
    (hopen : env.openRet (mkFs r) = 0)
    (hmal : env.mallocOk = true)
    (hread : ¬ env.readRet 0 < 0) :
    adc_mic_read r env =
      ([Event.newAdcData, Event.devNew, Event.devOpen,
        Event.malloc (bufSize r), Event.wdtReset, Event.read (bufSize r),
        Event.yield, Event.free, Event.devClose, Event.devDelete,
        Event.deleteDataIf],
       Except.ok (MpObj.bytes ((env.readData 0).take (bufSize r / 2)),
         (statsFold (env.readData 0) (csU r) 32767 (-32768)).1,
         (statsFold (env.readData 0) (csU r) 32767 (-32768)).2)) := by
  unfold adc_mic_read
  rw [if_neg hv1, if_neg hv2, if_pos hif, if_pos hdev, if_pos hopen,
    if_pos hmal]
  have hrange : List.range 1 = [0] := rfl
  rw [hrange]
  simp only [List.foldl_cons, List.foldl_nil, stepChunk, if_neg hread]
  rfl

/-- The call raises InvalidArgument exactly when one of the two
validator checks fires (in the source's `size_t` comparison). -/
lemma isInvalidArg_eq (r : Request) (env : Env) :
    isInvalidArg (adc_mic_read r env).2 =
      (decide (10 < r.adc_channel_num) ||
        decide (r.channel_list.length < toU32 r.adc_channel_num)) := by
  unfold adc_mic_read
  by_cases h1 : 10 < r.adc_channel_num
  · simp [h1, isInvalidArg]
  · by_cases h2 : r.channel_list.length < toU32 r.adc_channel_num
    · simp [h1, h2, isInvalidArg]
    · simp only [if_neg h1, if_neg h2]
      by_cases h3 : env.newAdcDataOk (mkCfg r) = true <;>
        by_cases h4 : env.devNewOk = true <;>
          by_cases h5 : env.openRet (mkFs r) = 0 <;>
            by_cases h6 : env.mallocOk = true <;>
              simp [h1, h2, h3, h4, h5, h6, isInvalidArg]

/-! ### Claims -/

/-- C1: the claim says that when the single read fails the call
completes without raising and returns an *empty byte sequence*.  The
call indeed completes without raising, but it returns `mp_const_none`
(Python `None`), not an empty bytes object: `last_buf_obj` is
initialised to `mp_const_none` (line 118), which is a non-NULL pointer,
so the C ternary `last_buf_obj ? last_buf_obj : mp_obj_new_bytes(NULL, 0)`
at line 169 never selects the empty-bytes branch.  Evaluated here at a
request whose single read returns `-1`. -/
theorem C1_read_fail_returns_none :
    (adc_mic_read rC1 envC1).2 = Except.ok (MpObj.mpNone, 32767, -32768) ∧
      MpObj.mpNone ≠ MpObj.bytes [] :=
  ⟨rfl, by decide⟩

/-- C2 counterexample: at `chunk_samples = 1`, `channel_num = 2` with
read buffer `[5, -7]`, the code's statistics are `(5, 5)` — only the
first `chunk_samples` samples are scanned (line 130) — while the scan
over all `chunk_samples × channel_num` samples that the claim requires
yields `(-7, 5)`. -/
theorem C2_cex_second_channel_not_scanned :
    runStats rC2 envC2 = (5, 5) ∧
      specScanAllChannels [5, -7] 1 2 = (-7, 5) ∧
        ((5 : Int), (5 : Int)) ≠ ((-7 : Int), (5 : Int)) :=
  ⟨rfl, rfl, by decide⟩

/-- C2 (amended): in every loop iteration whose read succeeds, the
statistics update examines exactly the first `chunk_samples` samples of
the freshly read buffer — not `chunk_samples × channel_num` — setting
`global_min`/`global_max` to the running min/max over those samples;
samples at positions `≥ chunk_samples` do not influence the
statistics. -/
theorem C2_stats_scan_first_chunk_samples (r : Request) (env : Env)
    (l1 l2 : List Int)
    (hv1 : ¬ 10 < r.adc_channel_num)
    (hv2 : ¬ r.channel_list.length < toU32 r.adc_channel_num)
    (hif : env.newAdcDataOk (mkCfg r) = true)
    (hdev : env.devNewOk = true)
    (hopen : env.openRet (mkFs r) = 0)
    (hmal : env.mallocOk = true)
    (hread : ¬ env.readRet 0 < 0)
    (hl : ∀ i, i < csU r → l1.getD i 0 = l2.getD i 0) :
    runStats r { env with readData := fun _ => l1 } =
        statsFold l1 (csU r) 32767 (-32768) ∧
      runStats r { env with readData := fun _ => l1 } =
        runStats r { env with readData := fun _ => l2 } := by
  have e1 := adc_mic_read_read_ok r { env with readData := fun _ => l1 }
    hv1 hv2 hif hdev hopen hmal hread
  have e2 := adc_mic_read_read_ok r { env with readData := fun _ => l2 }
    hv1 hv2 hif hdev hopen hmal hread
  constructor
  · simp only [runStats, e1]
  · simp only [runStats, e1, e2]
    rw [statsFold_congr l1 l2 (csU r) 32767 (-32768) hl]

/-- C2 witness: the amended theorem applied at `rW`/`envW` with
`l1 = [3, 9, 100]` and `l2 = [3, 9, -100]` (they agree on the first
`chunk_samples = 2` entries). -/
theorem C2_stats_scan_first_chunk_samples_witness :
    runStats rW { envW with readData := fun _ => [3, 9, 100] } =
        statsFold [3, 9, 100] (csU rW) 32767 (-32768) ∧
      runStats rW { envW with readData := fun _ => [3, 9, 100] } =
        runStats rW { envW with readData := fun _ => [3, 9, -100] } :=
  C2_stats_scan_first_chunk_samples rW envW [3, 9, 100] [3, 9, -100]
    (by decide) (by decide) (by decide) (by decide) (by decide) (by decide)
    (by decide) (by decide)

/-- C3 counterexample: at `chunk_samples = 1`, `channel_num = 2` with
read buffer `[5, -7]`, the returned byte sequence contains the sample
`-7`, yet the final statistics are `global_min = global_max = 5`, and
`5 ≤ -7` is false — so not every returned sample lies between
`global_min` and `global_max`. -/
theorem C3_cex_returned_sample_below_global_min :
    retSamples rC2 envC2 = [5, -7] ∧
      runStats rC2 envC2 = (5, 5) ∧
        ¬ ((5 : Int) ≤ -7) :=
  ⟨rfl, rfl, by decide⟩

/-- C3 (amended): for every request whose single read succeeds (and
whose `size_t` buffer-size product does not wrap), every sample among
the *first `chunk_samples`* samples of the returned byte sequence lies
between the final `global_min` and `global_max`; samples at later
interleave positions are not covered. -/
theorem C3_first_chunk_samples_within_stats (r : Request) (env : Env)
    (hv1 : ¬ 10 < r.adc_channel_num)
    (hv2 : ¬ r.channel_list.length < toU32 r.adc_channel_num)
    (hif : env.newAdcDataOk (mkCfg r) = true)
    (hdev : env.devNewOk = true)
    (hopen : env.openRet (mkFs r) = 0)
    (hmal : env.mallocOk = true)
    (hread : ¬ env.readRet 0 < 0)
    (hcn1 : 1 ≤ r.adc_channel_num)
    (hof : csU r * 2 * toU32 r.adc_channel_num < 2 ^ 32) :
    ∀ i, i < csU r →
      (runStats r env).1 ≤ (retSamples r env).getD i 0 ∧
        (retSamples r env).getD i 0 ≤ (runStats r env).2 := by
  intro i hi
  have e := adc_mic_read_read_ok r env hv1 hv2 hif hdev hopen hmal hread
  have hcnU : 1 ≤ toU32 r.adc_channel_num := by
    unfold toU32
    omega
  have hbs : bufSize r = csU r * 2 * toU32 r.adc_channel_num := by
    unfold bufSize
    exact Nat.mod_eq_of_lt hof
  have hcs_le : csU r ≤ bufSize r / 2 := by
    rw [hbs]
    have : csU r * 2 * toU32 r.adc_channel_num = 2 * (csU r * toU32 r.adc_channel_num) := by
      ring
    rw [this, Nat.mul_div_cancel_left _ (by norm_num : 0 < 2)]
    calc csU r = csU r * 1 := (Nat.mul_one _).symm
      _ ≤ csU r * toU32 r.adc_channel_num := Nat.mul_le_mul_left _ hcnU
  have hret : retSamples r env = (env.readData 0).take (bufSize r / 2) := by
    simp only [retSamples, e]
  have hst : runStats r env =
      ((statsFold (env.readData 0) (csU r) 32767 (-32768)).1,
        (statsFold (env.readData 0) (csU r) 32767 (-32768)).2) := by
    simp only [runStats, e]
  rw [hret, hst, getD_take _ _ _ (Nat.lt_of_lt_of_le hi hcs_le)]
  exact statsFold_bounds (env.readData 0) (csU r) 32767 (-32768) i hi

/-- C3 witness: the amended theorem at `rW`/`envW` (read buffer
`[3, 9]`), sample index 0. -/
theorem C3_first_chunk_samples_within_stats_witness :
    (runStats rW envW).1 ≤ (retSamples rW envW).getD 0 0 ∧
      (retSamples rW envW).getD 0 0 ≤ (runStats rW envW).2 :=
  C3_first_chunk_samples_within_stats rW envW (by decide) (by decide)
    (by decide) (by decide) (by decide) (by decide) (by decide) (by decide)
    (by decide) 0 (by decide)

/-- C4: on every execution path, the allocator/driver release events of
the call are exactly the canonical teardown sequence — buffer free,
then device close, then device delete, then data-interface delete —
each present exactly once when the corresponding resource was acquired
and absent when it was not (create-device failure deletes only the data
interface; open failure deletes device then data interface; a read
abort releases the same resources as normal completion). -/
theorem C4_release_reverse_order (r : Request) (env : Env) :
    (adc_mic_read r env).1.filter isRelease = releasePlan r env := by
  have hrange : List.range 1 = [0] := rfl
  unfold adc_mic_read releasePlan bufAcquired devOpened devCreated ifCreated
    validOk
  by_cases h1 : 10 < r.adc_channel_num
  · simp [h1, isRelease]
  · by_cases h2 : r.channel_list.length < toU32 r.adc_channel_num
    · simp [h1, h2, isRelease]
    · by_cases h3 : env.newAdcDataOk (mkCfg r) = true
      · by_cases h4 : env.devNewOk = true
        · by_cases h5 : env.openRet (mkFs r) = 0
          · by_cases h6 : env.mallocOk = true
            · by_cases h7 : env.readRet 0 < 0
              · simp [h1, h2, h3, h4, h5, h6, h7, hrange, stepChunk,
                  isRelease, List.filter]
              · simp [h1, h2, h3, h4, h5, h6, h7, hrange, stepChunk,
                  isRelease, List.filter]
            · simp [h1, h2, h3, h4, h5, h6, isRelease, List.filter]
          · simp [h1, h2, h3, h4, h5, isRelease, List.filter]
        · simp [h1, h2, h3, h4, isRelease, List.filter]
      · simp [h1, h2, h3, isRelease, List.filter]

/-- C5: a request with `channel_num > 10`, or one whose channel list
has fewer elements than `channel_num`, is rejected with one of the two
`ValueError`s (InvalidArgument) while the event trace is still empty —
before any allocator or driver operation. -/
theorem C5_invalid_rejected_before_acquisition (r : Request) (env : Env)
    (h : 10 < r.adc_channel_num ∨
      (r.channel_list.length : Int) < r.adc_channel_num) :
    (adc_mic_read r env).1 = [] ∧
      ((adc_mic_read r env).2 = Except.error Err.tooManyChannels ∨
        (adc_mic_read r env).2 = Except.error Err.listTooShort) := by
  unfold adc_mic_read
  by_cases h1 : 10 < r.adc_channel_num
  · rw [if_pos h1]
    exact ⟨rfl, Or.inl rfl⟩
  · rcases h with h | h
    · exact absurd h h1
    · have h2 : r.channel_list.length < toU32 r.adc_channel_num := by
        unfold toU32
        omega
      rw [if_neg h1, if_pos h2]
      exact ⟨rfl, Or.inr rfl⟩

/-- C5 witness: the theorem at the request with `channel_num = 11`. -/
theorem C5_invalid_rejected_before_acquisition_witness :
    (adc_mic_read rC5 env0).1 = [] ∧
      ((adc_mic_read rC5 env0).2 = Except.error Err.tooManyChannels ∨
        (adc_mic_read rC5 env0).2 = Except.error Err.listTooShort) :=
  C5_invalid_rejected_before_acquisition rC5 env0 (Or.inl (by decide))

/-- C6: when buffer allocation fails after the device was opened, the
call raises `OSError(ENOMEM)` (OutOfMemory), the trace shows
device-close, device-delete and data-interface-delete after the failed
allocation, and no read event ever occurs. -/
theorem C6_alloc_failure_unwinds_no_read (r : Request) (env : Env)
    (hv1 : ¬ 10 < r.adc_channel_num)
    (hv2 : ¬ r.channel_list.length < toU32 r.adc_channel_num)
    (hif : env.newAdcDataOk (mkCfg r) = true)
    (hdev : env.devNewOk = true)
    (hopen : env.openRet (mkFs r) = 0)
    (hmal : env.mallocOk = false) :
    (adc_mic_read r env).2 = Except.error Err.oom ∧
      (adc_mic_read r env).1 =
        [Event.newAdcData, Event.devNew, Event.devOpen,
          Event.malloc (bufSize r), Event.devClose, Event.devDelete,
          Event.deleteDataIf] ∧
      ∀ s, Event.read s ∉ (adc_mic_read r env).1 := by
  unfold adc_mic_read
  rw [if_neg hv1, if_neg hv2, if_pos hif, if_pos hdev, if_pos hopen,
    if_neg (by simp [hmal])]
  refine ⟨rfl, rfl, ?_⟩
  intro s
  simp

/-- C6 witness: the theorem at `rW` with the allocation-failing
environment. -/
theorem C6_alloc_failure_unwinds_no_read_witness :
    (adc_mic_read rW envOom).2 = Except.error Err.oom ∧
      (adc_mic_read rW envOom).1 =
        [Event.newAdcData, Event.devNew, Event.devOpen,
          Event.malloc (bufSize rW), Event.devClose, Event.devDelete,
          Event.deleteDataIf] ∧
      ∀ s, Event.read s ∉ (adc_mic_read rW envOom).1 :=
  C6_alloc_failure_unwinds_no_read rW envOom (by decide) (by decide)
    (by decide) (by decide) (by decide) (by decide)

/-- C7 counterexample: at `chunk_samples = 2^28`, `channel_num = 9` the
`size_t` product `buf_size = chunk_samples * 2 * 9 = 9 * 2^29` wraps
modulo `2^32` to `2^29` bytes (`2^28` samples).  The statistics loop
(`i < chunk_samples = 2^28`) and the snapshot stay within the
allocated buffer, so the whole call runs in defined behaviour — the
second and third conjuncts record this — yet when the allocation and
the single read succeed the returned byte sequence has `2^29` bytes,
not `chunk_samples × channel_num × 2 = 9 * 2^29`. -/
theorem C7_cex_size_t_wrap :
    (¬ envC7.readRet 0 < 0) ∧
      csU rC7 ≤ bufSize rC7 / 2 ∧
        (envC7.readData 0).length = bufSize rC7 / 2 ∧
          retByteLen rC7 envC7 = 2 ^ 29 ∧
            (2 ^ 29 : Nat) ≠ 2 ^ 28 * 9 * 2 := by
  have hbs : bufSize rC7 = 2 ^ 29 := by decide
  have hlen : (envC7.readData 0).length = 2 ^ 28 := by
    show (List.replicate (2 ^ 28) (0 : Int)).length = 2 ^ 28
    exact List.length_replicate _ _
  have e := adc_mic_read_read_ok rC7 envC7 (by decide) (by decide)
    (by decide) (by decide) (by decide) (by decide) (by decide)
  have hobj : retObj rC7 envC7 =
      some (MpObj.bytes ((envC7.readData 0).take (bufSize rC7 / 2))) := by
    simp only [retObj, e]
  refine ⟨by decide, by decide, ?_, ?_, by decide⟩
  · rw [hlen, hbs]
    norm_num
  · rw [retByteLen_eq rC7 envC7 _ hobj, byteLen_bytes, List.length_take,
      hbs, hlen]
    norm_num

/-- C7 (amended): for every request whose single read succeeds,
*provided the `size_t` product `chunk_samples * 2 * channel_num` does
not wrap modulo `2^32`*, the returned byte sequence has length exactly
`chunk_samples × channel_num × 2` bytes and holds the raw contents of
the last read buffer. -/
theorem C7_ret_len_and_raw_bytes (r : Request) (env : Env)
    (hv1 : ¬ 10 < r.adc_channel_num)
    (hv2 : ¬ r.channel_list.length < toU32 r.adc_channel_num)
    (hif : env.newAdcDataOk (mkCfg r) = true)
    (hdev : env.devNewOk = true)
    (hopen : env.openRet (mkFs r) = 0)
    (hmal : env.mallocOk = true)
    (hread : ¬ env.readRet 0 < 0)
    (hcs0 : 0 ≤ r.chunk_samples)
    (hcshi : r.chunk_samples < 2 ^ 31)
    (hcn0 : 0 ≤ r.adc_channel_num)
    (hof : r.chunk_samples.toNat * 2 * r.adc_channel_num.toNat < 2 ^ 32)
    (hbuf : bufSize r / 2 ≤ (env.readData 0).length) :
    retObj r env = some (MpObj.bytes ((env.readData 0).take (bufSize r / 2))) ∧
      retByteLen r env =
        r.chunk_samples.toNat * r.adc_channel_num.toNat * 2 := by
  have e := adc_mic_read_read_ok r env hv1 hv2 hif hdev hopen hmal hread
  have hcsU : csU r = r.chunk_samples.toNat := by
    unfold csU toU32
    omega
  have hcnU : toU32 r.adc_channel_num = r.adc_channel_num.toNat := by
    unfold toU32
    omega
  have hbs : bufSize r =
      r.chunk_samples.toNat * 2 * r.adc_channel_num.toNat := by
    unfold bufSize
    rw [hcsU, hcnU]
    exact Nat.mod_eq_of_lt hof
  have hobj : retObj r env =
      some (MpObj.bytes ((env.readData 0).take (bufSize r / 2))) := by
    simp only [retObj, e]
  refine ⟨hobj, ?_⟩
  simp only [retByteLen, hobj, byteLen, List.length_take]
  rw [min_eq_left hbuf, hbs]
  have h2 : r.chunk_samples.toNat * 2 * r.adc_channel_num.toNat =
      2 * (r.chunk_samples.toNat * r.adc_channel_num.toNat) := by ring
  rw [h2, Nat.mul_div_cancel_left _ (by norm_num : (0 : Nat) < 2)]
  ring

/-- C7 witness: the amended theorem at `rW`/`envW`
(`chunk_samples = 2`, one channel, buffer `[3, 9]`, 4 bytes). -/
theorem C7_ret_len_and_raw_bytes_witness :
    retObj rW envW =
        some (MpObj.bytes ((envW.readData 0).take (bufSize rW / 2))) ∧
      retByteLen rW envW =
        rW.chunk_samples.toNat * rW.adc_channel_num.toNat * 2 :=
  C7_ret_len_and_raw_bytes rW envW (by decide) (by decide) (by decide)
    (by decide) (by decide) (by decide) (by decide) (by decide) (by decide)
    (by decide) (by decide) (by decide)

/-- C8: on every execution path, every `read` event in the trace is
immediately preceded by a watchdog-reset event; no read occurs without
an immediately preceding watchdog reset. -/
theorem C8_wdt_reset_before_every_read (r : Request) (env : Env) :
    readsGuarded (adc_mic_read r env).1 = true := by
  have hrange : List.range 1 = [0] := rfl
  unfold adc_mic_read
  by_cases h1 : 10 < r.adc_channel_num
  · simp [h1, readsGuarded]
  · by_cases h2 : r.channel_list.length < toU32 r.adc_channel_num
    · simp [h1, h2, readsGuarded]
    · by_cases h3 : env.newAdcDataOk (mkCfg r) = true
      · by_cases h4 : env.devNewOk = true
        · by_cases h5 : env.openRet (mkFs r) = 0
          · by_cases h6 : env.mallocOk = true
            · by_cases h7 : env.readRet 0 < 0
              · simp [h1, h2, h3, h4, h5, h6, h7, hrange, stepChunk,
                  readsGuarded, readsGuardedAux, isRead, isWdt]
              · simp [h1, h2, h3, h4, h5, h6, h7, hrange, stepChunk,
                  readsGuarded, readsGuardedAux, isRead, isWdt]
            · simp [h1, h2, h3, h4, h5, h6, readsGuarded, readsGuardedAux,
                isRead, isWdt]
          · simp [h1, h2, h3, h4, h5, readsGuarded, readsGuardedAux,
              isRead, isWdt]
        · simp [h1, h2, h3, h4, readsGuarded, readsGuardedAux, isRead,
            isWdt]
      · simp [h1, h2, h3, readsGuarded, readsGuardedAux, isRead, isWdt]

/-- C9: for arguments in the 32-bit `mp_int_t` range and a physically
representable list length, the call raises InvalidArgument exactly when
`channel_num > 10` or the list length compares less than `channel_num`
under the C `size_t` comparison; `channel_num = 0` passes validation,
every negative `channel_num` is rejected via the list-length branch
(its `size_t` image is at least `2^31`), and the validation outcome is
unchanged when `chunk_samples` is replaced by 0. -/
theorem C9_validation_exact_semantics (r : Request) (env : Env)
    (hlo : -(2 ^ 31) ≤ r.adc_channel_num)
    (hlen : r.channel_list.length < 2 ^ 31) :
    (isInvalidArg (adc_mic_read r env).2 = true ↔
      (10 < r.adc_channel_num ∨
        r.channel_list.length < toU32 r.adc_channel_num)) ∧
      (r.adc_channel_num = 0 →
        isInvalidArg (adc_mic_read r env).2 = false) ∧
      (r.adc_channel_num < 0 →
        (adc_mic_read r env).2 = Except.error Err.listTooShort) ∧
      isInvalidArg (adc_mic_read { r with chunk_samples := 0 } env).2 =
        isInvalidArg (adc_mic_read r env).2 := by
  refine ⟨?_, ?_, ?_, ?_⟩
  · rw [isInvalidArg_eq]
    simp [Bool.or_eq_true, decide_eq_true_eq]
  · intro h0
    rw [isInvalidArg_eq, h0]
    simp [toU32]
  · intro hneg
    unfold adc_mic_read
    have h1 : ¬ 10 < r.adc_channel_num := by omega
    have h2 : r.channel_list.length < toU32 r.adc_channel_num := by
      unfold toU32
      omega
    rw [if_neg h1, if_pos h2]
  · rw [isInvalidArg_eq, isInvalidArg_eq]

/-- C9 witness: the theorem at the request with `channel_num = 0` and
`chunk_samples = 0`. -/
theorem C9_validation_exact_semantics_witness :
    (isInvalidArg (adc_mic_read rC9 env0).2 = true ↔
      (10 < rC9.adc_channel_num ∨
        rC9.channel_list.length < toU32 rC9.adc_channel_num)) ∧
      (rC9.adc_channel_num = 0 →
        isInvalidArg (adc_mic_read rC9 env0).2 = false) ∧
      (rC9.adc_channel_num < 0 →
        (adc_mic_read rC9 env0).2 = Except.error Err.listTooShort) ∧
      isInvalidArg (adc_mic_read { rC9 with chunk_samples := 0 } env0).2 =
        isInvalidArg (adc_mic_read rC9 env0).2 :=
  C9_validation_exact_semantics rC9 env0 (by decide) (by decide)

/-- C10: once the validator's two checks have passed (for arguments in
the 32-bit `mp_int_t` range and a physically representable list
length), every index at which the narrowing loop writes into the
10-element `channels` array is strictly less than 10. -/
theorem C10_narrow_loop_indices_in_bounds (r : Request)
    (hlo : -(2 ^ 31) ≤ r.adc_channel_num)
    (hlen : r.channel_list.length < 2 ^ 31)
    (hv1 : ¬ 10 < r.adc_channel_num)
    (hv2 : ¬ r.channel_list.length < toU32 r.adc_channel_num) :
    ∀ i ∈ narrowWriteIndices r, i < 10 := by
  intro i hi
  unfold narrowWriteIndices at hi
  rw [List.mem_range] at hi
  have hle : toU32 r.adc_channel_num ≤ 10 := by
    unfold toU32 at hv2 ⊢
    omega
  omega

/-- C10 witness: the theorem at the 10-channel request, write index 9. -/
theorem C10_narrow_loop_indices_in_bounds_witness :
    (9 ∈ narrowWriteIndices rC10) ∧ 9 < 10 :=
  ⟨by decide,
    C10_narrow_loop_indices_in_bounds rC10 (by decide) (by decide)
      (by decide) (by decide) 9 (by decide)⟩

end AdcMic
